import Mathlib

/-!
Shallow embedding of the support-engineering utilities repository:
the log scanner (`logParser.js`), the incident store (`incidentTracker.js`)
and the parallel API health checker, together with theorems settling the
specification claims about them.

Strings of the JavaScript source are modelled as `String` / `List Char`;
wall-clock timestamps (JavaScript `Date`) as natural numbers of
milliseconds since the epoch, passed explicitly to every operation that
reads the clock; JavaScript numbers arising from divisions as `ℚ`.
-/

namespace SupportTools

/-- JS `\w` character class: ASCII letters, digits and underscore. -/
def isWordChar (c : Char) : Bool :=
  c.isAlphanum || c = '_'

/-- `startsWithChars pat s` holds when `pat` occurs at the beginning of `s`. -/
def startsWithChars : List Char → List Char → Bool
  | [], _ => true
  | _ :: _, [] => false
  | p :: ps, c :: cs => p == c && startsWithChars ps cs

/-- JS `String.prototype.includes pat` on character lists: `pat` occurs
somewhere in `s` as a contiguous substring. -/
def containsSub (pat : List Char) : List Char → Bool
  | [] => startsWithChars pat []
  | c :: cs => startsWithChars pat (c :: cs) || containsSub pat cs

/-- Helper for the regex `\b503\b`: scans the line remembering the previous
character; a match needs `503` at the current position with a non-word
character (or the line edge) on both sides, since `5` and `3` are word
characters. -/
def wbMatch503Aux (prev : Option Char) : List Char → Bool
  | [] => false
  | c :: rest =>
    (startsWithChars ['5', '0', '3'] (c :: rest)
      && (match prev with | none => true | some p => !isWordChar p)
      && (match (c :: rest).drop 3 with | [] => true | d :: _ => !isWordChar d))
    || wbMatch503Aux (some c) rest

/-- JS `line.match(/\b503\b/)` viewed as a Boolean: the line contains the
token `503` bounded by word boundaries. -/
def wbMatch503 (line : List Char) : Bool :=
  wbMatch503Aux none line

/-- JS `String.prototype.split` at the newline character: splitting `""`
yields `[""]`, and a trailing newline yields a trailing empty line. -/
def splitLinesChars : List Char → List (List Char)
  | [] => [[]]
  | c :: rest =>
    if c == '\n' then [] :: splitLinesChars rest
    else
      match splitLinesChars rest with
      | [] => [[c]]
      | l :: ls => (c :: l) :: ls

/-- `LogParser.parseOriginErrors`: split the log content on newlines and
keep every line that contains the literal substring `" 503 "` or matches
the regex `/\b503\b/`. -/
def parseOriginErrors (logContent : String) : List String :=
  ((splitLinesChars logContent.toList).filter
    (fun line => containsSub " 503 ".toList line || wbMatch503 line)).map
      List.asString

/-- The result record of `LogParser.analyzeCachePerformance`. -/
structure CacheStats where
  hitRate : ℚ
  hitCount : ℕ
  missCount : ℕ
deriving DecidableEq, Repr

/-- One iteration of the `forEach` loop in `analyzeCachePerformance`:
a line containing `"HIT"` increments the hit count, otherwise a line
containing `"MISS"` increments the miss count. -/
def cacheStep (acc : ℕ × ℕ) (line : String) : ℕ × ℕ :=
  if containsSub "HIT".toList line.toList then (acc.1 + 1, acc.2)
  else if containsSub "MISS".toList line.toList then (acc.1, acc.2 + 1)
  else acc

/-- `LogParser.analyzeCachePerformance`: tally cache hits and misses over
the log lines and report the hit rate, guarding the division by zero. -/
def analyzeCachePerformance (logs : List String) : CacheStats :=
  let counts := logs.foldl cacheStep (0, 0)
  let total := counts.1 + counts.2
  { hitRate := if total > 0 then (counts.1 : ℚ) / (total : ℚ) else 0
  , hitCount := counts.1
  , missCount := counts.2 }

/-! ### Incident tracker (`incidentTracker.js`)

Timestamps are milliseconds since the epoch (`ℕ`); every operation that
calls `new Date()` in the source receives the current time explicitly. -/

/-- An incident record as built by `IncidentTracker.createIncident`:
`resolutionTime` and `rca` are `null` until the incident is resolved. -/
structure Incident where
  id : ℕ
  title : String
  severity : String
  affectedServices : List String
  detectionTime : ℕ
  resolutionTime : Option ℕ
  rca : Option String
deriving DecidableEq, Repr

/-- The state of an `IncidentTracker` instance: its ordered `incidents`
array. -/
structure TrackerState where
  incidents : List Incident
deriving DecidableEq, Repr

/-- The argument `id` of `resolveIncident` is documented as
`string|number`; JS strict equality `===` never equates a number with a
string. -/
inductive JSId where
  | num (n : ℕ)
  | str (s : String)
deriving DecidableEq, Repr

/-- JS `inc.id === id` where `inc.id` is a number and `id` a
`string|number` value: true only when `id` is the same number. -/
def idStrictEq (n : ℕ) (id : JSId) : Bool :=
  match id with
  | .num m => n == m
  | .str _ => false

/-- `IncidentTracker.createIncident title severity affectedServices`,
called at wall-clock time `now`: builds the record with the next
sequential id, pushes it and returns it. -/
def createIncident (st : TrackerState) (title severity : String)
    (affectedServices : List String) (now : ℕ) : TrackerState × Incident :=
  let incident : Incident :=
    { id := st.incidents.length + 1
    , title := title
    , severity := severity
    , affectedServices := affectedServices
    , detectionTime := now
    , resolutionTime := none
    , rca := none }
  (⟨st.incidents ++ [incident]⟩, incident)

/-- Core of `resolveIncident` on the incidents array: `Array.find` locates
the first record whose id strictly equals `id`; if it is unresolved
(`!incident.resolutionTime`), it is mutated in place with the resolution
time and rca. Returns the updated array and the found record (the JS
method returns `undefined`, here `none`, when the find fails). -/
def resolveInList (id : JSId) (rca : String) (now : ℕ) :
    List Incident → List Incident × Option Incident
  | [] => ([], none)
  | inc :: rest =>
    if idStrictEq inc.id id then
      if inc.resolutionTime = none then
        let inc' := { inc with resolutionTime := some now, rca := some rca }
        (inc' :: rest, some inc')
      else (inc :: rest, some inc)
    else
      let r := resolveInList id rca now rest
      (inc :: r.1, r.2)

/-- `IncidentTracker.resolveIncident id rca` called at wall-clock time
`now`. -/
def resolveIncident (st : TrackerState) (id : JSId) (rca : String)
    (now : ℕ) : TrackerState × Option Incident :=
  let r := resolveInList id rca now st.incidents
  (⟨r.1⟩, r.2)

/-- The summand `inc.resolutionTime - inc.detectionTime` of
`calculateMTTR` (JS `Date` subtraction yields milliseconds as a number;
the filter guarantees `resolutionTime` is present). -/
def msDelta (inc : Incident) : ℤ :=
  (inc.resolutionTime.getD 0 : ℤ) - (inc.detectionTime : ℤ)

/-- `IncidentTracker.calculateMTTR`: average over resolved incidents of
the detection→resolution delta, in hours; `0` when no incident is
resolved. -/
def calculateMTTR (st : TrackerState) : ℚ :=
  let resolved := st.incidents.filter (fun inc => inc.resolutionTime.isSome)
  if resolved.length = 0 then 0
  else
    let totalResolutionTime : ℤ := resolved.foldl (fun sum inc => sum + msDelta inc) 0
    (totalResolutionTime : ℚ) / (resolved.length : ℚ) / (1000 * 60 * 60)

/-- The decimal digit character for `n < 10`. -/
def digitChar (n : ℕ) : Char :=
  Char.ofNat (48 + n)

/-- `m` printed as exactly two decimal digits (for `m < 100`). -/
def pad2 (m : ℕ) : String :=
  String.mk [digitChar (m / 10 % 10), digitChar (m % 10)]

/-- `m` printed as exactly three decimal digits (for `m < 1000`). -/
def pad3 (m : ℕ) : String :=
  String.mk [digitChar (m / 100 % 10), digitChar (m / 10 % 10), digitChar (m % 10)]

/-- `m` printed as exactly four decimal digits (for `m < 10000`). -/
def pad4 (m : ℕ) : String :=
  String.mk [digitChar (m / 1000 % 10), digitChar (m / 100 % 10),
    digitChar (m / 10 % 10), digitChar (m % 10)]

/-- JS `Number.prototype.toFixed 2`: round to the nearest multiple of
`1/100` (ties toward `+∞`, per the `toFixed` specification picking the
larger candidate) and print with exactly two fraction digits. -/
def toFixed2 (q : ℚ) : String :=
  let scaled : ℤ := round (q * 100)
  let sign : String := if scaled < 0 then "-" else ""
  let n : ℕ := scaled.natAbs
  sign ++ toString (n / 100) ++ "." ++ pad2 (n % 100)

/-- Whether the (proleptic Gregorian) year is a leap year. -/
def isLeap (y : ℕ) : Bool :=
  (y % 4 == 0 && y % 100 != 0) || y % 400 == 0

/-- The month lengths of a year, January first. -/
def monthLengths (leap : Bool) : List ℕ :=
  [31, if leap then 29 else 28, 31, 30, 31, 30, 31, 31, 30, 31, 30, 31]

/-- Given a year and a zero-based day count from its January 1st, walk
forward year by year until the day index falls inside the year. -/
def yearFromDays (y d : ℕ) : ℕ × ℕ :=
  if h : d < (if isLeap y then 366 else 365) then (y, d)
  else yearFromDays (y + 1) (d - (if isLeap y then 366 else 365))
termination_by d
decreasing_by
  simp only [dite_eq_ite] at h ⊢
  cases hL : isLeap y <;> simp [hL] at h ⊢ <;> omega

/-- Given the month lengths and a zero-based day index into the year,
return the one-based month and the zero-based day of the month. -/
def findMonth (m : ℕ) : List ℕ → ℕ → ℕ × ℕ
  | [], d => (m, d)
  | len :: rest, d => if d < len then (m, d) else findMonth (m + 1) rest (d - len)

/-- JS `Date.prototype.toISOString` for a nonnegative epoch-millisecond
timestamp: `YYYY-MM-DDTHH:mm:ss.sssZ` (UTC). -/
def toISOString (t : ℕ) : String :=
  let yd := yearFromDays 1970 (t / 86400000)
  let md := findMonth 1 (monthLengths (isLeap yd.1)) yd.2
  pad4 yd.1 ++ "-" ++ pad2 md.1 ++ "-" ++ pad2 (md.2 + 1) ++ "T" ++
    pad2 (t / 3600000 % 24) ++ ":" ++ pad2 (t / 60000 % 60) ++ ":" ++
    pad2 (t / 1000 % 60) ++ "." ++ pad3 (t % 1000) ++ "Z"

/-- One section of the Markdown report, exactly as the `forEach` body of
`generateMarkdownReport` appends it: `inc.resolutionTime ?` is the JS
truthiness of the optional date (a `Date` object is always truthy), and
`inc.rca || 'Pending'` treats both `null` and the empty string as
missing. -/
def renderIncident (inc : Incident) : String :=
  "## Incident #" ++ toString inc.id ++ ": " ++ inc.title ++ "\n" ++
  "- **Severity:** " ++ inc.severity ++ "\n" ++
  "- **Affected Services:** " ++ String.intercalate ", " inc.affectedServices ++ "\n" ++
  "- **Detection Time:** " ++ toISOString inc.detectionTime ++ "\n" ++
  "- **Resolution Time:** " ++
    (match inc.resolutionTime with
     | some t => toISOString t
     | none => "Unresolved") ++ "\n" ++
  "- **RCA:** " ++
    (match inc.rca with
     | some s => if s = "" then "Pending" else s
     | none => "Pending") ++ "\n\n"

/-- `IncidentTracker.generateMarkdownReport`: header, one section per
incident accumulated in store order, then the MTTR line. -/
def generateMarkdownReport (st : TrackerState) : String :=
  let report := st.incidents.foldl (fun r inc => r ++ renderIncident inc)
    "# Incident Report\n\n"
  report ++ ("**MTTR:** " ++ toFixed2 (calculateMTTR st) ++ " hours\n")

/-! ### API health checker (`checkAPIHealth`)

The asynchronous semantics is embedded by an explicit fetch environment:
`env url` is how the platform's `fetch url` promise would settle — with
which HTTP status or rejection message, and after how many milliseconds.
`Promise.race` against the `setTimeout` timer is decided by comparing the
settle time with the timeout, and `Promise.all` over `urls.map` of
independent probes is the map of the per-URL probe. -/

/-- How the `fetch url` promise settles: a response carrying an HTTP
status after `time` milliseconds, or a rejection (network error, DNS
failure, …) with an error message after `time` milliseconds. -/
inductive FetchOutcome where
  | success (status : ℕ) (time : ℕ)
  | failure (msg : String) (time : ℕ)
deriving DecidableEq, Repr

/-- A result object of `checkAPIHealth`: the `error` field is only
present on the failure paths. -/
structure ApiHealthResult where
  url : String
  status : Option ℕ
  responseTime : ℕ
  healthy : Bool
  error : Option String
deriving DecidableEq, Repr

/-- JS `Response.ok`: the status is in the inclusive range 200–299. -/
def responseOk (status : ℕ) : Bool :=
  200 ≤ status && status ≤ 299

/-- One probe of `checkAPIHealth` for `url`: `fetchWithTimeout` races
`fetch url` against a timer that rejects with `Error('Timeout')` after
`timeout` milliseconds, so the fetch outcome wins exactly when it settles
strictly before the timer. A winning response is recorded with its status
and `healthy = response.ok`; a winning rejection is caught and recorded
with `status = null`, `healthy = false` and the rejection's message; when
the timer wins the caught message is `"Timeout"` and the elapsed time is
the timer's `timeout`. -/
def probeURL (env : String → FetchOutcome) (timeout : ℕ) (url : String) :
    ApiHealthResult :=
  match env url with
  | .success status t =>
    if t < timeout then
      { url := url, status := some status, responseTime := t
      , healthy := responseOk status, error := none }
    else
      { url := url, status := none, responseTime := timeout
      , healthy := false, error := some "Timeout" }
  | .failure msg t =>
    if t < timeout then
      { url := url, status := none, responseTime := t
      , healthy := false, error := some msg }
    else
      { url := url, status := none, responseTime := timeout
      , healthy := false, error := some "Timeout" }

/-- `checkAPIHealth urls timeout` under fetch environment `env`:
`Promise.all (urls.map …)` resolves — never rejects, since every probe
catches its own errors — to one result per URL in input order. -/
def checkAPIHealth (env : String → FetchOutcome) (urls : List String)
    (timeout : ℕ) : List ApiHealthResult :=
  urls.map (probeURL env timeout)

/-- Specification-side description of a single probe result, written from
the spec's §4.3 contract: the result names its URL; if the GET settles
first it carries the HTTP status, the elapsed time, `healthy` iff the
status is in the ok range, and no error; if the timer fires first or the
GET fails, it carries an absent status, `healthy = false`, the elapsed
time, and a descriptive message — literally `"Timeout"` when the timer
wins the race. -/
def ProbeResultSpec (env : String → FetchOutcome) (timeout : ℕ)
    (url : String) (r : ApiHealthResult) : Prop :=
  r.url = url ∧
  (∀ s t, env url = .success s t → t < timeout →
    r.status = some s ∧ r.responseTime = t ∧
      r.healthy = responseOk s ∧ r.error = none) ∧
  (∀ s t, env url = .success s t → timeout ≤ t →
    r.status = none ∧ r.responseTime = timeout ∧
      r.healthy = false ∧ r.error = some "Timeout") ∧
  (∀ m t, env url = .failure m t → t < timeout →
    r.status = none ∧ r.responseTime = t ∧
      r.healthy = false ∧ r.error = some m) ∧
  (∀ m t, env url = .failure m t → timeout ≤ t →
    r.status = none ∧ r.responseTime = timeout ∧
      r.healthy = false ∧ r.error = some "Timeout")

/-! ### Auxiliary definitions used by the claim statements -/

/-- The sections of the Markdown report, concatenated in store order. -/
def joinedSections : List Incident → String
  | [] => ""
  | inc :: rest => renderIncident inc ++ joinedSections rest

/-- The arguments of one `createIncident` call, together with the
wall-clock time at which it is made. -/
structure CreateCall where
  title : String
  severity : String
  affectedServices : List String
  now : ℕ
deriving DecidableEq, Repr

/-- Perform one `createIncident` call, keeping the new state. -/
def applyCreate (st : TrackerState) (c : CreateCall) : TrackerState :=
  (createIncident st c.title c.severity c.affectedServices c.now).1

/-- The state after a sequence of `createIncident` calls on a fresh
tracker. -/
def runCreates (calls : List CreateCall) : TrackerState :=
  calls.foldl applyCreate ⟨[]⟩

/-- The incident record the `createIncident` call builds when `i`
incidents already exist: id `i + 1`, detection time stamped with the
call's time, resolution time and rca absent. -/
def mkIncidentAt (i : ℕ) (c : CreateCall) : Incident :=
  { id := i + 1
  , title := c.title
  , severity := c.severity
  , affectedServices := c.affectedServices
  , detectionTime := c.now
  , resolutionTime := none
  , rca := none }

/-- One mutating call on the incident tracker. -/
inductive TrackerOp where
  | create (title severity : String) (services : List String)
  | resolve (id : JSId) (rca : String)
deriving DecidableEq, Repr

/-- Perform one tracker call at the given wall-clock time. -/
def applyOp (st : TrackerState) (p : TrackerOp × ℕ) : TrackerState :=
  match p.1 with
  | .create title severity services =>
    (createIncident st title severity services p.2).1
  | .resolve id rca => (resolveIncident st id rca p.2).1

/-- The state after a timed sequence of tracker calls on a fresh
tracker. -/
def runOps (ops : List (TrackerOp × ℕ)) : TrackerState :=
  ops.foldl applyOp ⟨[]⟩

/-- Two incidents created at time `0` and resolved after one hour and
three hours respectively (times in milliseconds). -/
def demoStore : TrackerState :=
  let s1 := createIncident ⟨[]⟩ "db outage" "high" ["db"] 0
  let s2 := createIncident s1.1 "cdn errors" "medium" ["cdn"] 0
  let s3 := resolveIncident s2.1 (.num 1) "root cause one" 3600000
  (resolveIncident s3.1 (.num 2) "root cause two" 10800000).1

/-- A store holding three unresolved incidents with ids 1, 2 and 3. -/
def demoStore9 : TrackerState :=
  let s1 := createIncident ⟨[]⟩ "one" "low" [] 10
  let s2 := createIncident s1.1 "two" "low" [] 20
  (createIncident s2.1 "three" "low" [] 30).1

/-- One incident created at time `0` and resolved at time `5` with the
empty string as rca. -/
def demoStoreEmptyRca : TrackerState :=
  let s1 := createIncident ⟨[]⟩ "blip" "low" ["edge"] 0
  (resolveIncident s1.1 (.num 1) "" 5).1

/-- The single (resolved, empty-rca) incident of `demoStoreEmptyRca`. -/
def incEmptyRca : Incident :=
  { id := 1
  , title := "blip"
  , severity := "low"
  , affectedServices := ["edge"]
  , detectionTime := 0
  , resolutionTime := some 5
  , rca := some "" }

/-- A fetch environment for the spec's §8 scenario: `"http://fast"`
responds 200 after 10 ms, every other URL only settles after 500 ms. -/
def demoEnv : String → FetchOutcome :=
  fun url => if url = "http://fast" then .success 200 10 else .success 200 500

/-- Two concrete `createIncident` calls. -/
def demoCalls : List CreateCall :=
  [⟨"a", "low", [], 5⟩, ⟨"b", "high", ["svc"], 6⟩]

/-- A create at time 5 followed by a resolve of its id at time 7. -/
def demoOps : List (TrackerOp × ℕ) :=
  [(.create "db down" "high" ["db"], 5), (.resolve (.num 1) "fix", 7)]

/-- The first (unresolved) incident of `demoStore9`. -/
def incDemo1 : Incident :=
  { id := 1
  , title := "one"
  , severity := "low"
  , affectedServices := []
  , detectionTime := 10
  , resolutionTime := none
  , rca := none }

/-- The first (already resolved) incident of `demoStore`. -/
def incDemoResolved : Incident :=
  { id := 1
  , title := "db outage"
  , severity := "high"
  , affectedServices := ["db"]
  , detectionTime := 0
  , resolutionTime := some 3600000
  , rca := some "root cause one" }

/-! ## Helper lemmas -/

theorem str_append_assoc (a b c : String) : a ++ b ++ c = a ++ (b ++ c) := by
  apply String.ext
  simp [String.data_append]

theorem cache_foldl_eq (logs : List String) (a b : ℕ) :
    logs.foldl cacheStep (a, b)
      = (a + (logs.filter (fun l => containsSub "HIT".toList l.toList)).length,
         b + (logs.filter (fun l =>
            !containsSub "HIT".toList l.toList
              && containsSub "MISS".toList l.toList)).length) := by
  induction logs generalizing a b with
  | nil => simp
  | cons l ls ih =>
    cases hH : containsSub "HIT".toList l.toList with
    | true =>
      simp at hH
      rw [List.foldl_cons,
        show cacheStep (a, b) l = (a + 1, b) by simp [cacheStep, hH], ih]
      simp [List.filter_cons, hH, Prod.mk.injEq]
      omega
    | false =>
      cases hM : containsSub "MISS".toList l.toList with
      | true =>
        simp at hH hM
        rw [List.foldl_cons,
          show cacheStep (a, b) l = (a, b + 1) by simp [cacheStep, hH, hM], ih]
        simp [List.filter_cons, hH, hM, Prod.mk.injEq]
        omega
      | false =>
        simp at hH hM
        rw [List.foldl_cons,
          show cacheStep (a, b) l = (a, b) by simp [cacheStep, hH, hM], ih]
        simp [List.filter_cons, hH, hM, Prod.mk.injEq]

/-! ## Claim theorems -/

/-- C1 (counterexample): contrary to the claim, `parseOriginErrors` on
`"a 503 b\nok\nc503d\n"` does not return the two lines
`["a 503 b", "c503d"]`. -/
theorem parseOriginErrors_claimed_example_false :
    parseOriginErrors "a 503 b\nok\nc503d\n" ≠ ["a 503 b", "c503d"] := by
  decide

/-- C1 (amended): `parseOriginErrors` on `"a 503 b\nok\nc503d\n"` returns
exactly the single line `"a 503 b"`; the line `"ok"` is excluded, and so
is `"c503d"`, because its `503` is adjacent to the word characters `c`
and `d` on both sides, so neither the `" 503 "` substring test nor the
word-boundary regex `\b503\b` matches it. -/
theorem parseOriginErrors_example_amended :
    parseOriginErrors "a 503 b\nok\nc503d\n" = ["a 503 b"]
    ∧ containsSub " 503 ".toList "c503d".toList = false
    ∧ wbMatch503 "c503d".toList = false
    ∧ wbMatch503 "a 503 b".toList = true := by
  decide

/-- C8: `analyzeCachePerformance` counts as hits the lines containing
`"HIT"`, as misses the lines containing `"MISS"` but not `"HIT"`, and
reports `hitRate = hitCount / (hitCount + missCount)` with `0` when both
counts are zero; on `["HIT", "MISS", "HIT", "other"]` it returns
`hitCount = 2`, `missCount = 1`, `hitRate = 2/3`. -/
theorem analyzeCachePerformance_counts (logs : List String) :
    (analyzeCachePerformance logs).hitCount
        = (logs.filter (fun l => containsSub "HIT".toList l.toList)).length
  ∧ (analyzeCachePerformance logs).missCount
        = (logs.filter (fun l =>
            !containsSub "HIT".toList l.toList
              && containsSub "MISS".toList l.toList)).length
  ∧ (analyzeCachePerformance logs).hitRate
        = (if (analyzeCachePerformance logs).hitCount
              + (analyzeCachePerformance logs).missCount = 0
           then 0
           else ((analyzeCachePerformance logs).hitCount : ℚ)
             / (((analyzeCachePerformance logs).hitCount : ℚ)
                 + ((analyzeCachePerformance logs).missCount : ℚ)))
  ∧ analyzeCachePerformance ["HIT", "MISS", "HIT", "other"]
        = ⟨2 / 3, 2, 1⟩ := by
  have h1 : (analyzeCachePerformance logs).hitCount
      = (logs.filter (fun l => containsSub "HIT".toList l.toList)).length := by
    simp only [analyzeCachePerformance]
    rw [cache_foldl_eq logs 0 0]
    simp
  have h2 : (analyzeCachePerformance logs).missCount
      = (logs.filter (fun l =>
          !containsSub "HIT".toList l.toList
            && containsSub "MISS".toList l.toList)).length := by
    simp only [analyzeCachePerformance]
    rw [cache_foldl_eq logs 0 0]
    simp
  refine ⟨h1, h2, ?_, ?_⟩
  · rw [h1, h2]
    simp only [analyzeCachePerformance]
    rw [cache_foldl_eq logs 0 0]
    simp only [Nat.zero_add]
    rcases Nat.eq_zero_or_pos
        ((logs.filter (fun l => containsSub "HIT".toList l.toList)).length
          + (logs.filter (fun l =>
              !containsSub "HIT".toList l.toList
                && containsSub "MISS".toList l.toList)).length) with h0 | hpos
    · rw [if_neg (by omega), if_pos h0]
    · rw [if_pos hpos, if_neg (by omega)]
      push_cast
      ring_nf
  · have h : List.foldl cacheStep (0, 0) ["HIT", "MISS", "HIT", "other"]
        = (2, 1) := rfl
    unfold analyzeCachePerformance
    rw [h]
    norm_num

theorem resolveInList_find_none (id : JSId) (rca : String) (now : ℕ)
    (l : List Incident)
    (h : l.find? (fun inc => idStrictEq inc.id id) = none) :
    resolveInList id rca now l = (l, none) := by
  induction l with
  | nil => rfl
  | cons inc rest ih =>
    rw [List.find?_cons] at h
    cases hm : idStrictEq inc.id id with
    | true => simp [hm] at h
    | false =>
      simp only [hm] at h
      simp [resolveInList, hm, ih h]

theorem resolveInList_find_unresolved (id : JSId) (rca : String) (now : ℕ)
    (l : List Incident) (inc : Incident)
    (hfind : l.find? (fun inc => idStrictEq inc.id id) = some inc)
    (hunres : inc.resolutionTime = none) :
    ∃ l1 l2, l = l1 ++ inc :: l2
      ∧ (∀ x ∈ l1, idStrictEq x.id id = false)
      ∧ resolveInList id rca now l
          = (l1 ++ { inc with resolutionTime := some now, rca := some rca } :: l2,
             some { inc with resolutionTime := some now, rca := some rca }) := by
  induction l with
  | nil => simp at hfind
  | cons a rest ih =>
    rw [List.find?_cons] at hfind
    cases hm : idStrictEq a.id id with
    | true =>
      simp only [hm] at hfind
      simp only [Option.some.injEq] at hfind
      subst hfind
      refine ⟨[], rest, by simp, by simp, ?_⟩
      simp [resolveInList, hm, hunres]
    | false =>
      simp only [hm] at hfind
      obtain ⟨l1, l2, hsplit, hall, hres⟩ := ih hfind
      refine ⟨a :: l1, l2, by simp [hsplit], ?_, ?_⟩
      · intro x hx
        rcases List.mem_cons.mp hx with hx | hx
        · exact hx ▸ hm
        · exact hall x hx
      · simp [resolveInList, hm, hres]

theorem resolveInList_find_resolved (id : JSId) (rca : String) (now : ℕ)
    (l : List Incident) (inc : Incident)
    (hfind : l.find? (fun inc => idStrictEq inc.id id) = some inc)
    (hres : inc.resolutionTime ≠ none) :
    resolveInList id rca now l = (l, some inc) := by
  induction l with
  | nil => simp at hfind
  | cons a rest ih =>
    rw [List.find?_cons] at hfind
    cases hm : idStrictEq a.id id with
    | true =>
      simp only [hm] at hfind
      simp only [Option.some.injEq] at hfind
      subst hfind
      simp [resolveInList, hm, hres]
    | false =>
      simp only [hm] at hfind
      simp [resolveInList, hm, ih hfind]

theorem resolveInList_idem (id : JSId) (rca rca2 : String) (now now2 : ℕ)
    (l : List Incident) :
    resolveInList id rca2 now2 (resolveInList id rca now l).1
      = ((resolveInList id rca now l).1, (resolveInList id rca now l).2) := by
  induction l with
  | nil => rfl
  | cons a rest ih =>
    cases hm : idStrictEq a.id id with
    | true =>
      cases hres : a.resolutionTime with
      | none => simp [resolveInList, hm, hres]
      | some t => simp [resolveInList, hm, hres]
    | false =>
      simp [resolveInList, hm, ih]

/-- C2: `resolveIncident id rca` returns the not-found value and leaves
the store unchanged when no incident has the identifier; when the first
incident with the identifier is unresolved it stamps its resolution time
with the call's wall-clock time, stores the rca and returns that record;
when it is already resolved it returns the record and store unchanged,
silently discarding the new rca; and a second resolve of the same id
after any first one changes nothing. -/
theorem resolveIncident_behavior (st : TrackerState) (id : JSId)
    (rca : String) (now : ℕ) :
    (st.incidents.find? (fun inc => idStrictEq inc.id id) = none →
      resolveIncident st id rca now = (st, none))
  ∧ (∀ inc, st.incidents.find? (fun inc => idStrictEq inc.id id) = some inc →
      inc.resolutionTime = none →
      ∃ l1 l2, st.incidents = l1 ++ inc :: l2
        ∧ (resolveIncident st id rca now).1.incidents
            = l1 ++ { inc with resolutionTime := some now, rca := some rca } :: l2
        ∧ (resolveIncident st id rca now).2
            = some { inc with resolutionTime := some now, rca := some rca })
  ∧ (∀ inc, st.incidents.find? (fun inc => idStrictEq inc.id id) = some inc →
      inc.resolutionTime ≠ none →
      resolveIncident st id rca now = (st, some inc))
  ∧ (∀ rca2 now2,
      resolveIncident (resolveIncident st id rca now).1 id rca2 now2
        = ((resolveIncident st id rca now).1,
           (resolveIncident st id rca now).2)) := by
  refine ⟨?_, ?_, ?_, ?_⟩
  · intro h
    simp [resolveIncident, resolveInList_find_none id rca now st.incidents h]
  · intro inc hfind hunres
    obtain ⟨l1, l2, hsplit, _, hres⟩ :=
      resolveInList_find_unresolved id rca now st.incidents inc hfind hunres
    exact ⟨l1, l2, hsplit, by simp [resolveIncident, hres], by simp [resolveIncident, hres]⟩
  · intro inc hfind hres
    simp [resolveIncident, resolveInList_find_resolved id rca now st.incidents inc hfind hres]
  · intro rca2 now2
    simp [resolveIncident, resolveInList_idem]

/-- C2 witness: the three cases at concrete stores — an unknown id on
`demoStore9`, the unresolved incident 1 of `demoStore9`, and the
already-resolved incident 1 of `demoStore`. -/
theorem resolveIncident_behavior_witness :
    resolveIncident demoStore9 (.num 7) "x" 99 = (demoStore9, none)
  ∧ (∃ l1 l2, demoStore9.incidents = l1 ++ incDemo1 :: l2
      ∧ (resolveIncident demoStore9 (.num 1) "fixed" 99).1.incidents
          = l1 ++ { incDemo1 with resolutionTime := some 99, rca := some "fixed" } :: l2
      ∧ (resolveIncident demoStore9 (.num 1) "fixed" 99).2
          = some { incDemo1 with resolutionTime := some 99, rca := some "fixed" })
  ∧ resolveIncident demoStore (.num 1) "second rca" 99
      = (demoStore, some incDemoResolved) :=
  ⟨(resolveIncident_behavior demoStore9 (.num 7) "x" 99).1 (by decide),
   (resolveIncident_behavior demoStore9 (.num 1) "fixed" 99).2.1 incDemo1
     (by decide) rfl,
   (resolveIncident_behavior demoStore (.num 1) "second rca" 99).2.2.1
     incDemoResolved (by decide) (by decide)⟩

theorem resolveInList_str (s rca : String) (now : ℕ) (l : List Incident) :
    resolveInList (.str s) rca now l = (l, none) := by
  induction l with
  | nil => rfl
  | cons inc rest ih =>
    simp [resolveInList, idStrictEq, ih]

/-- C9: the lookup of `resolveIncident` uses JS strict equality, so a
string-typed id never matches the numeric ids in the store: with any
string id the call returns the absent value and leaves every incident
unchanged — in particular `"3"` on a store whose incident 3 exists —
while the numeric id `3` does resolve that incident. -/
theorem resolveIncident_string_id (st : TrackerState) (s rca : String)
    (now : ℕ) :
    resolveIncident st (.str s) rca now = (st, none)
  ∧ resolveIncident demoStore9 (.str "3") rca now = (demoStore9, none)
  ∧ (resolveIncident demoStore9 (.num 3) rca now).2
      = some { id := 3
             , title := "three"
             , severity := "low"
             , affectedServices := []
             , detectionTime := 30
             , resolutionTime := some now
             , rca := some rca } := by
  refine ⟨?_, ?_, ?_⟩
  · simp [resolveIncident, resolveInList_str]
  · simp [resolveIncident, resolveInList_str]
  · simp [resolveIncident, demoStore9, createIncident, resolveInList, idStrictEq]

theorem foldl_add_msDelta (l : List Incident) (a : ℤ) :
    l.foldl (fun sum inc => sum + msDelta inc) a = a + (l.map msDelta).sum := by
  induction l generalizing a with
  | nil => simp
  | cons inc rest ih => simp [ih, add_assoc]

theorem sum_map_div (l : List Incident) (f : Incident → ℚ) (c : ℚ) :
    (l.map fun inc => f inc / c).sum = (l.map f).sum / c := by
  induction l with
  | nil => simp
  | cons inc rest ih => simp [ih, add_div]

theorem cast_sum_msDelta (l : List Incident) :
    (((l.map msDelta).sum : ℤ) : ℚ) = (l.map fun inc => (msDelta inc : ℚ)).sum := by
  induction l with
  | nil => simp
  | cons inc rest ih =>
    simp only [List.map_cons, List.sum_cons, Int.cast_add, ih]

/-- C4: `calculateMTTR` is the arithmetic mean, over the incidents with a
present resolution time, of the detection→resolution delta in
milliseconds divided by 3,600,000 (hours); it is `0` when no incident is
resolved, with no division by zero; and on the two-incident store with
deltas of one hour and three hours it is exactly `2`. -/
theorem calculateMTTR_mean (st : TrackerState) :
    calculateMTTR st
        = (if (st.incidents.filter (fun inc => inc.resolutionTime.isSome)).length = 0
           then 0
           else ((st.incidents.filter (fun inc => inc.resolutionTime.isSome)).map
              (fun inc => (msDelta inc : ℚ) / 3600000)).sum
             / ((st.incidents.filter (fun inc => inc.resolutionTime.isSome)).length : ℚ))
  ∧ (st.incidents.filter (fun inc => inc.resolutionTime.isSome) = [] →
      calculateMTTR st = 0)
  ∧ calculateMTTR demoStore = 2 := by
  refine ⟨?_, ?_, ?_⟩
  · simp only [calculateMTTR]
    rcases eq_or_ne
        (st.incidents.filter (fun inc => inc.resolutionTime.isSome)).length 0 with h0 | hne
    · rw [if_pos h0, if_pos h0]
    · rw [if_neg hne, if_neg hne]
      rw [foldl_add_msDelta, sum_map_div]
      rw [zero_add, cast_sum_msDelta]
      rw [div_right_comm]
      norm_num
  · intro h
    simp only [calculateMTTR, h]
    simp
  · have hres : demoStore.incidents.filter (fun inc => inc.resolutionTime.isSome)
        = [incDemoResolved,
           { id := 2
           , title := "cdn errors"
           , severity := "medium"
           , affectedServices := ["cdn"]
           , detectionTime := 0
           , resolutionTime := some 10800000
           , rca := some "root cause two" }] := rfl
    simp only [calculateMTTR, hres]
    norm_num [msDelta, incDemoResolved]

/-- C4 witness: on a store with three unresolved incidents the MTTR is
`0`. -/
theorem calculateMTTR_mean_witness :
    demoStore9.incidents.filter (fun inc => inc.resolutionTime.isSome) = []
  ∧ calculateMTTR demoStore9 = 0 :=
  ⟨by decide, (calculateMTTR_mean demoStore9).2.1 (by decide)⟩

theorem foldl_creates (calls : List CreateCall) (st : TrackerState) :
    (calls.foldl applyCreate st).incidents
      = st.incidents ++ (calls.enumFrom st.incidents.length).map
          (fun p => mkIncidentAt p.1 p.2) := by
  induction calls generalizing st with
  | nil => simp
  | cons c cs ih =>
    rw [List.foldl_cons, ih,
      show (applyCreate st c).incidents
        = st.incidents ++ [mkIncidentAt st.incidents.length c] from rfl]
    simp [List.enumFrom, List.append_assoc]

theorem runCreates_incidents (calls : List CreateCall) :
    (runCreates calls).incidents
      = (calls.enumFrom 0).map (fun p => mkIncidentAt p.1 p.2) := by
  simpa using foldl_creates calls ⟨[]⟩

theorem enum_map_id (calls : List CreateCall) (k : ℕ) :
    ((calls.enumFrom k).map (fun p => mkIncidentAt p.1 p.2)).map Incident.id
      = List.range' (k + 1) calls.length := by
  induction calls generalizing k with
  | nil => simp
  | cons c cs ih =>
    simp only [List.enumFrom, List.map_cons, List.length_cons, List.range']
    rw [ih]
    simp [mkIncidentAt]

/-- C5: a sequence of `createIncident` calls on a fresh store yields the
incidents in insertion order with detection time stamped from each call
and resolution time and rca absent; the ids in store order are exactly
`1, 2, …, n` (unique and increasing); and the `n`-th call (0-indexed
`n`, so 1-indexed `n + 1`) returns the record with id `n + 1` and
appends it at the end of the collection. -/
theorem createIncident_sequence (calls : List CreateCall) :
    (runCreates calls).incidents
        = (calls.enumFrom 0).map (fun p => mkIncidentAt p.1 p.2)
  ∧ (runCreates calls).incidents.map Incident.id = List.range' 1 calls.length
  ∧ (∀ n (hn : n < calls.length),
      createIncident (runCreates (calls.take n)) (calls.get ⟨n, hn⟩).title
          (calls.get ⟨n, hn⟩).severity (calls.get ⟨n, hn⟩).affectedServices
          (calls.get ⟨n, hn⟩).now
        = (runCreates (calls.take (n + 1)), mkIncidentAt n (calls.get ⟨n, hn⟩)))
  ∧ (∀ n (hn : n < calls.length),
      (runCreates (calls.take (n + 1))).incidents
        = (runCreates (calls.take n)).incidents
            ++ [mkIncidentAt n (calls.get ⟨n, hn⟩)]) := by
  have hlen : ∀ n, n < calls.length →
      (runCreates (calls.take n)).incidents.length = n := by
    intro n hn
    rw [runCreates_incidents]
    simp [List.enumFrom_length, List.length_take]
    omega
  have hsucc : ∀ n (hn : n < calls.length),
      runCreates (calls.take (n + 1))
        = applyCreate (runCreates (calls.take n)) (calls.get ⟨n, hn⟩) := by
    intro n hn
    rw [runCreates, runCreates, List.take_succ, List.foldl_append,
      List.getElem?_eq_getElem hn]
    rfl
  refine ⟨runCreates_incidents calls, ?_, ?_, ?_⟩
  · rw [runCreates_incidents]
    simpa using enum_map_id calls 0
  · intro n hn
    have h2 : (createIncident (runCreates (calls.take n))
        (calls.get ⟨n, hn⟩).title (calls.get ⟨n, hn⟩).severity
        (calls.get ⟨n, hn⟩).affectedServices (calls.get ⟨n, hn⟩).now).2
        = mkIncidentAt n (calls.get ⟨n, hn⟩) := by
      simp [createIncident, mkIncidentAt, hlen n hn]
    rw [hsucc n hn, ← h2]
    rfl
  · intro n hn
    rw [hsucc n hn,
      show (applyCreate (runCreates (calls.take n)) (calls.get ⟨n, hn⟩)).incidents
        = (runCreates (calls.take n)).incidents
            ++ [mkIncidentAt (runCreates (calls.take n)).incidents.length
                 (calls.get ⟨n, hn⟩)] from rfl,
      hlen n hn]

/-- C5 witness: the second of two concrete calls returns the record with
id 2 and appends it. -/
theorem createIncident_sequence_witness :
    createIncident (runCreates (demoCalls.take 1))
        (demoCalls.get ⟨1, by decide⟩).title
        (demoCalls.get ⟨1, by decide⟩).severity
        (demoCalls.get ⟨1, by decide⟩).affectedServices
        (demoCalls.get ⟨1, by decide⟩).now
      = (runCreates (demoCalls.take 2),
         mkIncidentAt 1 (demoCalls.get ⟨1, by decide⟩)) :=
  (createIncident_sequence demoCalls).2.2.1 1 (by decide)

theorem foldl_render (l : List Incident) (init : String) :
    l.foldl (fun r inc => r ++ renderIncident inc) init
      = init ++ joinedSections l := by
  induction l generalizing init with
  | nil => simp [joinedSections, String.append_empty]
  | cons inc rest ih => simp [joinedSections, ih, str_append_assoc]

theorem generateMarkdownReport_eq (st : TrackerState) :
    generateMarkdownReport st
      = "# Incident Report\n\n" ++ joinedSections st.incidents
          ++ ("**MTTR:** " ++ toFixed2 (calculateMTTR st) ++ " hours\n") := by
  simp only [generateMarkdownReport]
  rw [foldl_render, str_append_assoc]

theorem isDigit_digitChar (n : ℕ) (h : n < 10) : (digitChar n).isDigit = true := by
  interval_cases n <;> decide

theorem pad2_length (m : ℕ) : (pad2 m).length = 2 := rfl

theorem pad2_digits (m : ℕ) : (pad2 m).toList.all Char.isDigit = true := by
  simp [pad2, String.toList,
    isDigit_digitChar (m / 10 % 10) (by omega),
    isDigit_digitChar (m % 10) (by omega)]

theorem toFixed2_decomposition (q : ℚ) :
    ∃ ip fp : String, toFixed2 q = ip ++ "." ++ fp
      ∧ fp.length = 2 ∧ fp.toList.all Char.isDigit = true :=
  ⟨(if round (q * 100) < 0 then "-" else "")
      ++ toString ((round (q * 100)).natAbs / 100),
   pad2 ((round (q * 100)).natAbs % 100),
   rfl, pad2_length _, pad2_digits _⟩

theorem joinedSections_append (a b : List Incident) :
    joinedSections (a ++ b) = joinedSections a ++ joinedSections b := by
  induction a with
  | nil => simp [joinedSections, String.empty_append]
  | cons inc rest ih => simp [joinedSections, ih, str_append_assoc]

theorem mem_split_render (st : TrackerState) (inc : Incident)
    (h : inc ∈ st.incidents) :
    ∃ a b, generateMarkdownReport st = a ++ renderIncident inc ++ b := by
  obtain ⟨l1, l2, hsplit⟩ := List.append_of_mem h
  refine ⟨"# Incident Report\n\n" ++ joinedSections l1,
    joinedSections l2 ++ ("**MTTR:** " ++ toFixed2 (calculateMTTR st) ++ " hours\n"), ?_⟩
  rw [generateMarkdownReport_eq, hsplit, joinedSections_append]
  apply String.ext
  simp [String.data_append, joinedSections, List.append_assoc]

/-- C6: the Markdown report is the header followed by one section per
incident in insertion order (each section rendering id, title, severity,
services joined by ", ", ISO-8601 detection time, ISO-8601 resolution
time or "Unresolved", and rca or "Pending" — see `renderIncident` /
`joinedSections`), and it ends with the line
`**MTTR:** X.XX hours` where the fraction part has exactly two decimal
digits. -/
theorem generateMarkdownReport_shape (st : TrackerState) :
    generateMarkdownReport st
        = "# Incident Report\n\n" ++ joinedSections st.incidents
          ++ ("**MTTR:** " ++ toFixed2 (calculateMTTR st) ++ " hours\n")
  ∧ ∃ ip fp : String, toFixed2 (calculateMTTR st) = ip ++ "." ++ fp
      ∧ fp.length = 2 ∧ fp.toList.all Char.isDigit = true :=
  ⟨generateMarkdownReport_eq st, toFixed2_decomposition (calculateMTTR st)⟩

/-- C10: an incident resolved with the empty string as rca is rendered
with the literal "Pending" in its RCA field — `inc.rca || 'Pending'`
treats the empty string as missing — while its resolution time is
rendered in ISO-8601; and its section does appear in the report. -/
theorem emptyRcaRendersPending (st : TrackerState) (inc : Incident) (t : ℕ)
    (hmem : inc ∈ st.incidents) (hrca : inc.rca = some "")
    (hres : inc.resolutionTime = some t) :
    renderIncident inc
        = "## Incident #" ++ toString inc.id ++ ": " ++ inc.title ++ "\n" ++
          "- **Severity:** " ++ inc.severity ++ "\n" ++
          "- **Affected Services:** "
            ++ String.intercalate ", " inc.affectedServices ++ "\n" ++
          "- **Detection Time:** " ++ toISOString inc.detectionTime ++ "\n" ++
          "- **Resolution Time:** " ++ toISOString t ++ "\n" ++
          "- **RCA:** " ++ "Pending" ++ "\n\n"
  ∧ ∃ a b, generateMarkdownReport st = a ++ renderIncident inc ++ b := by
  constructor
  · simp [renderIncident, hrca, hres]
  · exact mem_split_render st inc hmem

/-- C10 witness: the concrete store whose only incident was resolved with
an empty rca. -/
theorem emptyRcaRendersPending_witness :
    incEmptyRca ∈ demoStoreEmptyRca.incidents
  ∧ incEmptyRca.rca = some ""
  ∧ incEmptyRca.resolutionTime = some 5
  ∧ renderIncident incEmptyRca
        = "## Incident #" ++ toString incEmptyRca.id ++ ": " ++ incEmptyRca.title ++ "\n" ++
          "- **Severity:** " ++ incEmptyRca.severity ++ "\n" ++
          "- **Affected Services:** "
            ++ String.intercalate ", " incEmptyRca.affectedServices ++ "\n" ++
          "- **Detection Time:** " ++ toISOString incEmptyRca.detectionTime ++ "\n" ++
          "- **Resolution Time:** " ++ toISOString 5 ++ "\n" ++
          "- **RCA:** " ++ "Pending" ++ "\n\n"
  ∧ (∃ a b, generateMarkdownReport demoStoreEmptyRca
        = a ++ renderIncident incEmptyRca ++ b) :=
  ⟨by decide, rfl, rfl,
   (emptyRcaRendersPending demoStoreEmptyRca incEmptyRca 5 (by decide) rfl rfl).1,
   (emptyRcaRendersPending demoStoreEmptyRca incEmptyRca 5 (by decide) rfl rfl).2⟩

theorem resolveInList_mem (id : JSId) (rca : String) (now : ℕ)
    (l : List Incident) (y : Incident)
    (hy : y ∈ (resolveInList id rca now l).1) :
    y ∈ l ∨ ∃ x, x ∈ l ∧ x.resolutionTime = none
      ∧ y = { x with resolutionTime := some now, rca := some rca } := by
  induction l with
  | nil => simp [resolveInList] at hy
  | cons a rest ih =>
    by_cases hm : idStrictEq a.id id = true
    · by_cases hres : a.resolutionTime = none
      · simp only [resolveInList, hm, if_true, hres] at hy
        rcases List.mem_cons.mp hy with hy | hy
        · exact Or.inr ⟨a, List.mem_cons_self a rest, hres, hy⟩
        · exact Or.inl (List.mem_cons_of_mem a hy)
      · simp only [resolveInList, hm, if_true, if_neg hres] at hy
        exact Or.inl hy
    · simp only [resolveInList, if_neg hm] at hy
      rcases List.mem_cons.mp hy with hy | hy
      · exact Or.inl (hy ▸ List.mem_cons_self a rest)
      · rcases ih hy with h | ⟨x, hx, hxr, hxy⟩
        · exact Or.inl (List.mem_cons_of_mem a h)
        · exact Or.inr ⟨x, List.mem_cons_of_mem a hx, hxr, hxy⟩

theorem resolveInList_get_resolved (id : JSId) (rca : String) (now : ℕ)
    (l : List Incident) (n : ℕ) (inc : Incident)
    (hget : l.get? n = some inc) (hres : inc.resolutionTime.isSome) :
    (resolveInList id rca now l).1.get? n = some inc := by
  induction l generalizing n with
  | nil => simp at hget
  | cons a rest ih =>
    by_cases hm : idStrictEq a.id id = true
    · by_cases hanone : a.resolutionTime = none
      · simp only [resolveInList, hm, if_true, hanone]
        cases n with
        | zero =>
          simp at hget
          subst hget
          rw [hanone] at hres
          simp at hres
        | succ k => simpa using hget
      · simp only [resolveInList, hm, if_true, if_neg hanone]
        exact hget
    · simp only [resolveInList, if_neg hm]
      cases n with
      | zero => simpa using hget
      | succ k =>
        simp only [List.get?_cons_succ] at hget ⊢
        exact ih k hget

theorem applyOp_get_resolved (st : TrackerState) (p : TrackerOp × ℕ)
    (n : ℕ) (inc : Incident)
    (hget : st.incidents.get? n = some inc)
    (hres : inc.resolutionTime.isSome) :
    (applyOp st p).incidents.get? n = some inc := by
  rcases p with ⟨op, t⟩
  cases op with
  | create title severity services =>
    obtain ⟨hn, _⟩ := List.get?_eq_some.mp hget
    simp only [applyOp, createIncident]
    simp only [List.get?_eq_getElem?] at hget ⊢
    rw [List.getElem?_append_left hn]
    exact hget
  | resolve id rca =>
    simp only [applyOp, resolveIncident]
    exact resolveInList_get_resolved id rca t st.incidents n inc hget hres

theorem runOps_get_resolved_mono (ops : List (TrackerOp × ℕ)) (k j n : ℕ)
    (hkj : k ≤ j) (inc : Incident)
    (hget : (runOps (ops.take k)).incidents.get? n = some inc)
    (hres : inc.resolutionTime.isSome) :
    (runOps (ops.take j)).incidents.get? n = some inc := by
  induction j with
  | zero =>
    have : k = 0 := Nat.le_zero.mp hkj
    subst this
    exact hget
  | succ j ih =>
    rcases Nat.eq_or_lt_of_le hkj with heq | hlt
    · subst heq
      exact hget
    · have hj := ih (Nat.lt_succ_iff.mp hlt)
      have hstep : runOps (ops.take (j + 1))
          = (ops[j]?).toList.foldl applyOp (runOps (ops.take j)) := by
        rw [runOps, runOps, List.take_succ, List.foldl_append]
      rw [hstep]
      cases hoj : ops[j]? with
      | none => simpa using hj
      | some p =>
        simpa using applyOp_get_resolved (runOps (ops.take j)) p n inc hj hres

theorem runOps_detect_le (ops : List (TrackerOp × ℕ)) (st : TrackerState)
    (t0 : ℕ)
    (hchain : List.Chain (· ≤ ·) t0 (ops.map Prod.snd))
    (hdet : ∀ inc ∈ st.incidents, inc.detectionTime ≤ t0)
    (hinv : ∀ inc ∈ st.incidents, ∀ r, inc.resolutionTime = some r →
      inc.detectionTime ≤ r) :
    ∀ inc ∈ (ops.foldl applyOp st).incidents, ∀ r,
      inc.resolutionTime = some r → inc.detectionTime ≤ r := by
  induction ops generalizing st t0 with
  | nil => simpa using hinv
  | cons p rest ih =>
    rcases p with ⟨op, t⟩
    rw [List.map_cons, List.chain_cons] at hchain
    obtain ⟨ht0t, hchain2⟩ := hchain
    rw [List.foldl_cons]
    apply ih (applyOp st (op, t)) t hchain2
    · intro inc hinc
      cases op with
      | create title severity services =>
        have hmem : inc ∈ st.incidents
            ∨ inc = { id := st.incidents.length + 1, title := title
                    , severity := severity, affectedServices := services
                    , detectionTime := t, resolutionTime := none
                    , rca := none } := by
          simpa [applyOp, createIncident] using hinc
        rcases hmem with h | h
        · exact le_trans (hdet inc h) ht0t
        · subst h
          simp
      | resolve id rca =>
        rcases resolveInList_mem id rca t st.incidents inc
            (by simpa [applyOp, resolveIncident] using hinc)
          with h | ⟨x, hx, hxr, hxy⟩
        · exact le_trans (hdet inc h) ht0t
        · subst hxy
          simpa using le_trans (hdet x hx) ht0t
    · intro inc hinc r hr
      cases op with
      | create title severity services =>
        have hmem : inc ∈ st.incidents
            ∨ inc = { id := st.incidents.length + 1, title := title
                    , severity := severity, affectedServices := services
                    , detectionTime := t, resolutionTime := none
                    , rca := none } := by
          simpa [applyOp, createIncident] using hinc
        rcases hmem with h | h
        · exact hinv inc h r hr
        · subst h
          simp at hr
      | resolve id rca =>
        rcases resolveInList_mem id rca t st.incidents inc
            (by simpa [applyOp, resolveIncident] using hinc)
          with h | ⟨x, hx, hxr, hxy⟩
        · exact hinv inc h r hr
        · subst hxy
          simp at hr
          subst hr
          simpa using le_trans (hdet x hx) ht0t

/-- C3: over any monotonically-timed sequence of create/resolve calls on
a fresh tracker, every incident whose resolution time is set has it `≥`
its detection time; and once an incident (at a fixed store position) is
resolved, its whole record — resolution time and rca included — is never
changed again by later calls, so the detection→resolved transition
happens at most once. -/
theorem incident_lifecycle (ops : List (TrackerOp × ℕ))
    (hmono : List.Chain (· ≤ ·) 0 (ops.map Prod.snd)) :
    (∀ inc ∈ (runOps ops).incidents, ∀ r, inc.resolutionTime = some r →
      inc.detectionTime ≤ r)
  ∧ (∀ k j n inc, k ≤ j →
      (runOps (ops.take k)).incidents.get? n = some inc →
      inc.resolutionTime.isSome →
      (runOps (ops.take j)).incidents.get? n = some inc) := by
  constructor
  · exact runOps_detect_le ops ⟨[]⟩ 0 hmono (by simp) (by simp)
  · intro k j n inc hkj hget hres
    exact runOps_get_resolved_mono ops k j n hkj inc hget hres

/-- C3 witness: a concrete create-then-resolve run with times 5 and 7. -/
theorem incident_lifecycle_witness :
    List.Chain (· ≤ ·) 0 (demoOps.map Prod.snd)
  ∧ (∀ inc ∈ (runOps demoOps).incidents, ∀ r, inc.resolutionTime = some r →
      inc.detectionTime ≤ r)
  ∧ (runOps (demoOps.take 2)).incidents.get? 0
      = some { id := 1, title := "db down", severity := "high"
             , affectedServices := ["db"], detectionTime := 5
             , resolutionTime := some 7, rca := some "fix" } :=
  ⟨by norm_num [demoOps, List.chain_cons],
   (incident_lifecycle demoOps (by norm_num [demoOps, List.chain_cons])).1,
   (incident_lifecycle demoOps (by norm_num [demoOps, List.chain_cons])).2 2 2 0
     { id := 1, title := "db down", severity := "high"
     , affectedServices := ["db"], detectionTime := 5
     , resolutionTime := some 7, rca := some "fix" }
     (Nat.le_refl 2) (by decide) (by decide)⟩

theorem probeURL_url (env : String → FetchOutcome) (timeout : ℕ)
    (url : String) : (probeURL env timeout url).url = url := by
  unfold probeURL
  cases env url <;> dsimp only <;> split <;> rfl

theorem probeURL_spec (env : String → FetchOutcome) (timeout : ℕ)
    (url : String) :
    ProbeResultSpec env timeout url (probeURL env timeout url) := by
  refine ⟨probeURL_url env timeout url, ?_, ?_, ?_, ?_⟩
  · intro s t henv hlt
    simp [probeURL, henv, hlt]
  · intro s t henv hge
    simp [probeURL, henv, Nat.not_lt.mpr hge]
  · intro m t henv hlt
    simp [probeURL, henv, hlt]
  · intro m t henv hge
    simp [probeURL, henv, Nat.not_lt.mpr hge]

/-- C7: under any fetch environment, `checkAPIHealth` produces one result
per input URL in input order (and `[]` for `[]`), and every result meets
the spec contract `ProbeResultSpec`: a GET that settles first yields its
HTTP status, the elapsed time, `healthy` iff the status is in the ok
range and no error; a timer win or a failing GET yields an absent status,
`healthy = false`, the elapsed time and a message — literally `"Timeout"`
when the timer wins. The spec's §8 scenario evaluates accordingly. -/
theorem checkAPIHealth_results (env : String → FetchOutcome)
    (urls : List String) (timeout : ℕ) :
    (checkAPIHealth env urls timeout).map ApiHealthResult.url = urls
  ∧ List.Forall₂ (fun url r => ProbeResultSpec env timeout url r) urls
      (checkAPIHealth env urls timeout)
  ∧ checkAPIHealth env [] timeout = []
  ∧ checkAPIHealth demoEnv ["http://fast", "http://slow"] 100
      = [{ url := "http://fast", status := some 200, responseTime := 10
         , healthy := true, error := none },
         { url := "http://slow", status := none, responseTime := 100
         , healthy := false, error := some "Timeout" }] := by
  refine ⟨?_, ?_, rfl, by decide⟩
  · rw [checkAPIHealth, List.map_map]
    conv_rhs => rw [← List.map_id urls]
    exact List.map_congr_left (fun u _ => probeURL_url env timeout u)
  · induction urls with
    | nil => exact List.Forall₂.nil
    | cons u us ih => exact List.Forall₂.cons (probeURL_spec env timeout u) ih

/-- C7 witness: the fast/slow two-URL scenario, evaluated. -/
theorem checkAPIHealth_results_witness :
    checkAPIHealth demoEnv ["http://fast", "http://slow"] 100
      = [{ url := "http://fast", status := some 200, responseTime := 10
         , healthy := true, error := none },
         { url := "http://slow", status := none, responseTime := 100
         , healthy := false, error := some "Timeout" }] :=
  (checkAPIHealth_results demoEnv ["http://fast", "http://slow"] 100).2.2.2

end SupportTools

